import Mathlib

/-!
Verification of the access-control and ordering core of the boardhub
backend (boards, lists, cards). The definitions below are a shallow
embedding of the JavaScript source:

* `src/models/BoardMember.js` — membership schema, role enum, the
  `pre('save')` hook that derives the stored permission set from the role,
  and the schema defaults for the permission fields;
* `src/routes/boards.js` — board creation (which also creates the owner's
  membership record), member invitation, and member-role update
  (`findOneAndUpdate`, which does not run the `pre('save')` hook);
* `src/routes/lists.js` — the `checkListAccess` middleware and the
  list update / delete / reorder handlers, including the
  `express-validator` bound `newOrder >= 1` on the reorder route;
* `src/models/List.js` — the `pre('save')` hook assigning the order of a
  newly created list (`max existing order + 1`, or `0` on an empty board);
* the cards router — the `PATCH /:id/move` handler (cross-board target
  rejected) and the `PUT /reorder` bulk handler together with
  `cardSchema.statics.reorderCards`.

Identifiers are ObjectIds in the source; they are modelled as `Nat`.
Order values are modelled as `Int`.
-/

namespace BoardHub

/-- Membership roles. The schema enum in `BoardMember.js` is
`['owner', 'admin', 'editor', 'viewer']`. -/
inductive Role where
  | owner
  | admin
  | editor
  | viewer
deriving DecidableEq, Repr

/-- The fixed-shape permission set stored on a membership
(`boardMemberSchema.permissions`). -/
structure PermissionSet where
  canEditBoard : Bool
  canDeleteBoard : Bool
  canInviteMembers : Bool
  canRemoveMembers : Bool
  canCreateLists : Bool
  canEditLists : Bool
  canDeleteLists : Bool
  canCreateCards : Bool
  canEditCards : Bool
  canDeleteCards : Bool
  canMoveCards : Bool
  canComment : Bool
deriving DecidableEq, Repr

/-- Schema defaults of the permission fields in `BoardMember.js`
(used before the save hook overwrites them). -/
def defaultPermissions : PermissionSet :=
  { canEditBoard := false
    canDeleteBoard := false
    canInviteMembers := false
    canRemoveMembers := false
    canCreateLists := true
    canEditLists := true
    canDeleteLists := false
    canCreateCards := true
    canEditCards := true
    canDeleteCards := false
    canMoveCards := true
    canComment := true }

/-- The switch in `boardMemberSchema.pre('save')` in `BoardMember.js`:
permissions derived from the role. -/
def setPermissionsByRole : Role → PermissionSet
  | Role.owner =>
    { canEditBoard := true
      canDeleteBoard := true
      canInviteMembers := true
      canRemoveMembers := true
      canCreateLists := true
      canEditLists := true
      canDeleteLists := true
      canCreateCards := true
      canEditCards := true
      canDeleteCards := true
      canMoveCards := true
      canComment := true }
  | Role.admin =>
    { canEditBoard := true
      canDeleteBoard := false
      canInviteMembers := true
      canRemoveMembers := true
      canCreateLists := true
      canEditLists := true
      canDeleteLists := true
      canCreateCards := true
      canEditCards := true
      canDeleteCards := true
      canMoveCards := true
      canComment := true }
  | Role.editor =>
    { canEditBoard := false
      canDeleteBoard := false
      canInviteMembers := false
      canRemoveMembers := false
      canCreateLists := true
      canEditLists := true
      canDeleteLists := false
      canCreateCards := true
      canEditCards := true
      canDeleteCards := false
      canMoveCards := true
      canComment := true }
  | Role.viewer =>
    { canEditBoard := false
      canDeleteBoard := false
      canInviteMembers := false
      canRemoveMembers := false
      canCreateLists := false
      canEditLists := false
      canDeleteLists := false
      canCreateCards := false
      canEditCards := false
      canDeleteCards := false
      canMoveCards := false
      canComment := false }

/-- A `BoardMember` document. -/
structure Membership where
  board : Nat
  user : Nat
  role : Role
  permissions : PermissionSet
  isActive : Bool
deriving DecidableEq, Repr

/-- Running the `pre('save')` hook on a membership document: the stored
permissions are replaced by the role-derived set. -/
def applySaveHook (m : Membership) : Membership :=
  { m with permissions := setPermissionsByRole m.role }

/-- `BoardMember.create {...}`: the document is built with schema defaults
for the permissions and then saved, which runs the `pre('save')` hook. -/
def createMembership (board user : Nat) (role : Role) : Membership :=
  applySaveHook
    { board := board
      user := user
      role := role
      permissions := defaultPermissions
      isActive := true }

/-- The member-role update route (`PUT /:id/members/:memberId` in
`boards.js`) uses `BoardMember.findOneAndUpdate({_id, board}, {role})`,
which writes only the `role` field. `findOneAndUpdate` does not trigger
the `pre('save')` hook, so the stored permissions are left untouched. -/
def updateMemberRole (m : Membership) (newRole : Role) : Membership :=
  { m with role := newRole }

/-- A `Board` document (the fields the core uses). -/
structure Board where
  id : Nat
  owner : Nat
  isPublic : Bool
deriving DecidableEq, Repr

/-- Board creation (`router.post('/')` in `boards.js`): creates the board
and then `BoardMember.create` for the owner with `role: 'owner'` and an
explicit all-true permission literal (which the save hook then overwrites
with the role-derived set for `'owner'`, the same values). -/
def createBoard (boardId ownerId : Nat) (isPublic : Bool) : Board × Membership :=
  (⟨boardId, ownerId, isPublic⟩,
   applySaveHook
     { board := boardId
       user := ownerId
       role := Role.owner
       permissions :=
         { canEditBoard := true
           canDeleteBoard := true
           canInviteMembers := true
           canRemoveMembers := true
           canCreateLists := true
           canEditLists := true
           canDeleteLists := true
           canCreateCards := true
           canEditCards := true
           canDeleteCards := true
           canMoveCards := true
           canComment := true }
       isActive := true })

/-- The invite route's validator in `boards.js`:
`body('role').isIn(['admin', 'editor', 'viewer'])`. -/
def inviteRoleValid (r : Role) : Bool :=
  match r with
  | Role.admin => true
  | Role.editor => true
  | Role.viewer => true
  | Role.owner => false

/-- The invite route (`POST /:id/members` in `boards.js`), after the
permission gate: validator on the role, duplicate-membership check
(`findOne({board, user})`, without an `isActive` filter), then
`BoardMember.create({board, user, role})`. Returns `none` when the
request is rejected. -/
def inviteMember (db : List Membership) (boardId targetUser : Nat) (r : Role) :
    Option Membership :=
  if ¬ inviteRoleValid r then none
  else if (db.find? fun m => decide (m.board = boardId ∧ m.user = targetUser)).isSome then
    none
  else some (createMembership boardId targetUser r)

/-- `BoardMember.findOne({board, user, isActive: true})` as used by the
access middleware. -/
def findMembership (db : List Membership) (boardId userId : Nat) : Option Membership :=
  db.find? fun m => decide (m.board = boardId ∧ m.user = userId ∧ m.isActive = true)

/-- Result of the `checkListAccess` middleware in `lists.js`: either the
request proceeds, carrying `req.userRole` and the optional
`req.membership`, or it is answered with an HTTP status and message. -/
inductive ListAccess where
  | grant (userRole : Role) (membership : Option Membership)
  | deny (status : Nat) (message : String)
deriving DecidableEq, Repr

/-- The `checkListAccess` middleware in `lists.js` (with the list already
found, so the 404 branch does not apply): owner check, public-board
check (which grants with `req.userRole = 'viewer'` and no membership),
then the active-membership lookup. -/
def checkListAccess (db : List Membership) (board : Board) (userId : Nat) : ListAccess :=
  if board.owner = userId then .grant Role.owner none
  else if board.isPublic then .grant Role.viewer none
  else
    match findMembership db board.id userId with
    | none => .deny 403 "Access denied"
    | some m => .grant m.role (some m)

/-- The permission gate used by the list update / delete / reorder
handlers in `lists.js`:
`req.userRole !== 'owner' && req.membership && !req.membership.permissions.canX`.
When `req.membership` is absent the `&&` chain is falsy and the gate does
not deny. -/
def listMutationDenied (userRole : Role) (membership : Option Membership)
    (perm : PermissionSet → Bool) : Bool :=
  decide (userRole ≠ Role.owner) &&
    (match membership with
     | none => false
     | some m => !(perm m.permissions))

/-- Outcome of a list route: success, a validation failure
(`express-validator` answers 400 before any later middleware runs), or a
denial with status and message (the JSON body also carries
`success: false` in every denial). -/
inductive RequestOutcome where
  | success
  | invalid
  | forbidden (status : Nat) (message : String)
deriving DecidableEq, Repr

/-- The `PUT /:id` list update route in `lists.js`, from `checkListAccess`
through the `canEditLists` gate (the body update itself touches no order
state). -/
def listEditEndpoint (db : List Membership) (board : Board) (userId : Nat) :
    RequestOutcome :=
  match checkListAccess db board userId with
  | .deny s msg => .forbidden s msg
  | .grant role mem =>
    if listMutationDenied role mem (fun p => p.canEditLists) then
      .forbidden 403 "You do not have permission to edit this list"
    else .success

/-- The `DELETE /:id` list route in `lists.js`, from `checkListAccess`
through the `canDeleteLists` gate. -/
def listDeleteEndpoint (db : List Membership) (board : Board) (userId : Nat) :
    RequestOutcome :=
  match checkListAccess db board userId with
  | .deny s msg => .forbidden s msg
  | .grant role mem =>
    if listMutationDenied role mem (fun p => p.canDeleteLists) then
      .forbidden 403 "You do not have permission to delete this list"
    else .success

/-- Claim C3: for each role in {admin, editor, viewer} the save hook
produces exactly the capability table of spec section 4.1 — admin has
everything except `canDeleteBoard`; editor has exactly
create/edit lists, create/edit cards, move cards and comment; viewer has
nothing. All 12 booleans, by exact equality of the whole record. -/
theorem c3_role_permission_table :
    setPermissionsByRole Role.admin =
      ⟨true, false, true, true, true, true, true, true, true, true, true, true⟩ ∧
    setPermissionsByRole Role.editor =
      ⟨false, false, false, false, true, true, false, true, true, false, true, true⟩ ∧
    setPermissionsByRole Role.viewer =
      ⟨false, false, false, false, false, false, false, false, false, false, false, false⟩ := by
  decide

/-- Claim C2: the code contradicts the claim. Creating a viewer
membership and then changing its role to admin through the member-role
update route (`findOneAndUpdate`, which bypasses the `pre('save')` hook)
leaves the stored permissions at the viewer set: the record has
`role = admin` while `permissions` differs from the canonical admin set,
and in particular `canDeleteLists` still reads `false`. -/
theorem c2_role_update_keeps_stale_permissions :
    (updateMemberRole (createMembership 1 200 Role.viewer) Role.admin).role = Role.admin ∧
    (updateMemberRole (createMembership 1 200 Role.viewer) Role.admin).permissions ≠
      setPermissionsByRole Role.admin ∧
    (updateMemberRole (createMembership 1 200 Role.viewer) Role.admin).permissions.canDeleteLists
      = false := by
  decide

/-- Claim C4, counterexample: creating a board does create a membership
record for its owner, with role `owner` — refuting both "creating a board
creates no Membership for its owner" and "`owner` is never a membership
role value". -/
theorem c4_owner_membership_created_cex :
    (createBoard 1 100 false).2.user = (createBoard 1 100 false).1.owner ∧
    (createBoard 1 100 false).2.board = (createBoard 1 100 false).1.id ∧
    (createBoard 1 100 false).2.role = Role.owner := by
  decide

/-- Claim C4, amended: creating a board creates a membership for its
owner with role `owner` (so `owner` is a membership role value), while
memberships created through the invite route always carry a role in
{admin, editor, viewer} — the invite validator rejects `owner`. -/
theorem c4_amended_owner_membership_and_invite_roles :
    ((createBoard 1 100 false).2.user = (createBoard 1 100 false).1.owner ∧
     (createBoard 1 100 false).2.role = Role.owner) ∧
    (∀ (db : List Membership) (b u : Nat) (r : Role) (m : Membership),
      inviteMember db b u r = some m →
        (m.role = Role.admin ∨ m.role = Role.editor ∨ m.role = Role.viewer) ∧
        m.board = b ∧ m.user = u) := by
  refine ⟨by decide, ?_⟩
  intro db b u r m h
  unfold inviteMember at h
  split at h
  · exact Option.noConfusion h
  · split at h
    · exact Option.noConfusion h
    · rename_i hv _
      injection h with h
      subst h
      refine ⟨?_, rfl, rfl⟩
      cases r
      · exact (hv (by decide)).elim
      · exact Or.inl rfl
      · exact Or.inr (Or.inl rfl)
      · exact Or.inr (Or.inr rfl)

/-- Witness for the amended C4 theorem at a concrete input: inviting user
200 to board 1 as editor yields a membership with an allowed role. -/
theorem c4_amended_witness :
    (inviteMember [] 1 200 Role.editor = some (createMembership 1 200 Role.editor)) ∧
    (((createMembership 1 200 Role.editor).role = Role.admin ∨
      (createMembership 1 200 Role.editor).role = Role.editor ∨
      (createMembership 1 200 Role.editor).role = Role.viewer) ∧
     (createMembership 1 200 Role.editor).board = 1 ∧
     (createMembership 1 200 Role.editor).user = 200) :=
  ⟨by decide,
   c4_amended_owner_membership_and_invite_roles.2 [] 1 200 Role.editor
     (createMembership 1 200 Role.editor) (by decide)⟩

/-- A `List` document (a list of cards on a board): identity, board
reference, integer order. -/
structure ListDoc where
  id : Nat
  board : Nat
  order : Int
deriving DecidableEq, Repr

/-- The forward branch of the reorder handler in `lists.js`:
`List.updateMany({board, order: {$gt: currentOrder, $lte: newOrder}}, {$inc: {order: -1}})`
applied to one document. -/
def shiftDown (t : ListDoc) (newOrder : Int) (l : ListDoc) : ListDoc :=
  if l.board = t.board ∧ t.order < l.order ∧ l.order ≤ newOrder then
    { l with order := l.order - 1 }
  else l

/-- The backward branch of the reorder handler in `lists.js`:
`List.updateMany({board, order: {$gte: newOrder, $lt: currentOrder}}, {$inc: {order: 1}})`
applied to one document. -/
def shiftUp (t : ListDoc) (newOrder : Int) (l : ListDoc) : ListDoc :=
  if l.board = t.board ∧ newOrder ≤ l.order ∧ l.order < t.order then
    { l with order := l.order + 1 }
  else l

/-- The final step of the reorder handler: `list.order = newOrder;
await list.save()` (the `pre('save')` hook only recomputes the order for
new documents, so saving an existing list writes `newOrder` as is). -/
def setTargetOrder (t : ListDoc) (newOrder : Int) (l : ListDoc) : ListDoc :=
  if l.id = t.id then { l with order := newOrder } else l

/-- The core of the `PUT /:id/reorder` handler in `lists.js`
(lines 772-797), acting on the collection of list documents: no-op when
`currentOrder === newOrder`, otherwise one `updateMany` shift over the
board's lists followed by saving the target with the new order. -/
def reorderList (db : List ListDoc) (t : ListDoc) (newOrder : Int) : List ListDoc :=
  if t.order = newOrder then db
  else if t.order < newOrder then
    (db.map (shiftDown t newOrder)).map (setTargetOrder t newOrder)
  else
    (db.map (shiftUp t newOrder)).map (setTargetOrder t newOrder)

/-- Modelled from the spec: the per-sibling effect of
`moveWithinParent(item, newOrder)` as section 4.3 words it — the moved
item's order becomes `newOrder`; when moving forward every sibling with
order in `(oldOrder, newOrder]` is decremented; when moving backward
every sibling with order in `[newOrder, oldOrder)` is incremented; every
other sibling is unchanged. -/
def moveWithinParentSpec (t : ListDoc) (newOrder : Int) (l : ListDoc) : ListDoc :=
  if l.id = t.id then { l with order := newOrder }
  else if l.board = t.board ∧ t.order < newOrder ∧ t.order < l.order ∧ l.order ≤ newOrder then
    { l with order := l.order - 1 }
  else if l.board = t.board ∧ newOrder < t.order ∧ newOrder ≤ l.order ∧ l.order < t.order then
    { l with order := l.order + 1 }
  else l

/-- Reading siblings sorted by order (the routes read with
`.sort({order: 1})`): insertion sort on the order field. -/
def insertByOrder (c : ListDoc) : List ListDoc → List ListDoc
  | [] => [c]
  | x :: xs => if c.order ≤ x.order then c :: x :: xs else x :: insertByOrder c xs

/-- Sort a collection of list documents by their order field. -/
def sortByOrder (l : List ListDoc) : List ListDoc :=
  l.foldr insertByOrder []

/-- The order assigned to a newly created sibling by the `pre('save')`
hooks of `List.js` and the card model: `findOne` sorted by order
descending (the maximum), then `last ? last.order + 1 : 0`. -/
def appendOrder (siblings : List Int) : Int :=
  match siblings with
  | [] => 0
  | a :: rest => rest.foldl max a + 1

/-- Appending `n` items one after another to an initially empty parent,
collecting the assigned orders. -/
def appendN : Nat → List Int
  | 0 => []
  | n + 1 => appendN n ++ [appendOrder (appendN n)]

/-- The full `PUT /:id/reorder` list route in `lists.js`: the
`express-validator` chain (`body('newOrder').isInt({min: 1})`) runs
before authentication and `checkListAccess`; then the `canEditLists`
gate; then the reorder core. Returns the outcome and the resulting
collection of list documents. -/
def listReorderRequest (lists : List ListDoc) (mems : List Membership) (board : Board)
    (userId : Nat) (target : ListDoc) (newOrder : Int) :
    RequestOutcome × List ListDoc :=
  if newOrder < 1 then (.invalid, lists)
  else
    match checkListAccess mems board userId with
    | .deny s msg => (.forbidden s msg, lists)
    | .grant role mem =>
      if listMutationDenied role mem (fun p => p.canEditLists) then
        (.forbidden 403 "You do not have permission to reorder this list", lists)
      else (.success, reorderList lists target newOrder)

/-- Claim C1: the code contradicts the claim. An authenticated user who
is neither owner nor member of a public board is let through every list
mutation: `checkListAccess` grants with `userRole = viewer` and no
membership, and the handler gates
(`req.userRole !== 'owner' && req.membership && ...`) are falsy without a
membership, so list edit, list delete and list reorder all proceed. -/
theorem c1_public_board_nonmember_mutations_allowed :
    listEditEndpoint [] ⟨1, 100, true⟩ 200 = RequestOutcome.success ∧
    listDeleteEndpoint [] ⟨1, 100, true⟩ 200 = RequestOutcome.success ∧
    (listReorderRequest [⟨5, 1, 1⟩, ⟨6, 1, 2⟩] [] ⟨1, 100, true⟩ 200 ⟨5, 1, 1⟩ 2).1 =
      RequestOutcome.success := by
  decide

/-- Claim C9, counterexample: the two denial causes are distinguishable
by the caller. On a private board, a user with no membership is answered
`403 "Access denied"` by `checkListAccess`, while a viewer member who
lacks `canEditLists` is answered
`403 "You do not have permission to edit this list"` by the handler —
two different responses. -/
theorem c9_denial_messages_differ_cex :
    listEditEndpoint [] ⟨1, 100, false⟩ 200 =
      RequestOutcome.forbidden 403 "Access denied" ∧
    listEditEndpoint [createMembership 1 200 Role.viewer] ⟨1, 100, false⟩ 200 =
      RequestOutcome.forbidden 403 "You do not have permission to edit this list" ∧
    listEditEndpoint [] ⟨1, 100, false⟩ 200 ≠
      listEditEndpoint [createMembership 1 200 Role.viewer] ⟨1, 100, false⟩ 200 := by
  decide

/-- Claim C9, amended: both denial causes produce the same HTTP status —
every denial the list-edit route emits is a 403 (with `success: false` in
the body) — but the message strings differ between the no-relationship
case and the insufficient-permission case, so the body does reveal which
case occurred. -/
theorem c9_denials_are_403 :
    (∀ (db : List Membership) (board : Board) (userId : Nat) (s : Nat) (msg : String),
      listEditEndpoint db board userId = RequestOutcome.forbidden s msg → s = 403) ∧
    listEditEndpoint [] ⟨1, 100, false⟩ 200 ≠
      listEditEndpoint [createMembership 1 200 Role.viewer] ⟨1, 100, false⟩ 200 := by
  constructor
  · intro db board userId s msg h
    unfold listEditEndpoint at h
    cases hacc : checkListAccess db board userId with
    | deny s2 m2 =>
      rw [hacc] at h
      injection h with h1 h2
      subst h1
      unfold checkListAccess at hacc
      split at hacc
      · exact ListAccess.noConfusion hacc
      · split at hacc
        · exact ListAccess.noConfusion hacc
        · cases hfm : findMembership db board.id userId with
          | none =>
            rw [hfm] at hacc
            injection hacc with h3 h4
            omega
          | some m =>
            rw [hfm] at hacc
            exact ListAccess.noConfusion hacc
    | grant role mem =>
      rw [hacc] at h
      dsimp only at h
      by_cases hd : listMutationDenied role mem (fun p => p.canEditLists) = true
      · rw [if_pos hd] at h
        injection h with h1 h2
        omega
      · rw [if_neg hd] at h
        exact RequestOutcome.noConfusion h
  · decide

/-- Witness for the amended C9 theorem: the no-membership denial on a
private board is a 403. -/
theorem c9_witness :
    listEditEndpoint [] ⟨1, 100, false⟩ 200 = RequestOutcome.forbidden 403 "Access denied" ∧
    (403 : Nat) = 403 :=
  ⟨by decide, c9_denials_are_403.1 [] ⟨1, 100, false⟩ 200 403 "Access denied" (by decide)⟩

/-- On a forward move the two passes of the handler (range decrement,
then saving the target) act on one document exactly as the spec's
`moveWithinParent` description. -/
lemma comp_down (t l : ListDoc) (n : Int) (hlt : t.order < n) :
    setTargetOrder t n (shiftDown t n l) = moveWithinParentSpec t n l := by
  unfold shiftDown
  by_cases hC : l.board = t.board ∧ t.order < l.order ∧ l.order ≤ n
  · rw [if_pos hC]
    unfold setTargetOrder moveWithinParentSpec
    by_cases hid : l.id = t.id
    · rw [if_pos (show ({ l with order := l.order - 1 } : ListDoc).id = t.id from hid),
          if_pos hid]
    · rw [if_neg (show ¬({ l with order := l.order - 1 } : ListDoc).id = t.id from hid),
          if_neg hid, if_pos ⟨hC.1, hlt, hC.2.1, hC.2.2⟩]
  · rw [if_neg hC]
    unfold setTargetOrder moveWithinParentSpec
    by_cases hid : l.id = t.id
    · rw [if_pos hid, if_pos hid]
    · rw [if_neg hid, if_neg hid, if_neg (fun hh => hC ⟨hh.1, hh.2.2.1, hh.2.2.2⟩),
          if_neg (fun hh => by omega)]

/-- On a backward move the two passes of the handler (range increment,
then saving the target) act on one document exactly as the spec's
`moveWithinParent` description. -/
lemma comp_up (t l : ListDoc) (n : Int) (hgt : n < t.order) :
    setTargetOrder t n (shiftUp t n l) = moveWithinParentSpec t n l := by
  unfold shiftUp
  by_cases hC : l.board = t.board ∧ n ≤ l.order ∧ l.order < t.order
  · rw [if_pos hC]
    unfold setTargetOrder moveWithinParentSpec
    by_cases hid : l.id = t.id
    · rw [if_pos (show ({ l with order := l.order + 1 } : ListDoc).id = t.id from hid),
          if_pos hid]
    · rw [if_neg (show ¬({ l with order := l.order + 1 } : ListDoc).id = t.id from hid),
          if_neg hid, if_neg (fun hh => by omega),
          if_pos ⟨hC.1, hgt, hC.2.1, hC.2.2⟩]
  · rw [if_neg hC]
    unfold setTargetOrder moveWithinParentSpec
    by_cases hid : l.id = t.id
    · rw [if_pos hid, if_pos hid]
    · rw [if_neg hid, if_neg hid, if_neg (fun hh => by omega),
          if_neg (fun hh => hC ⟨hh.1, hh.2.2.1, hh.2.2.2⟩)]

/-- Claim C5: for a list move with `newOrder` distinct from the current
order, the reorder handler relocates the target to `newOrder`, decrements
exactly the same-board siblings with order in `(oldOrder, newOrder]` on a
forward move, increments exactly those in `[newOrder, oldOrder)` on a
backward move, and leaves every other sibling unchanged — and in the
concrete scenario with siblings at orders 0, 1, 2, moving the last item
to position 0 yields orders 1, 2, 0, so reading them sorted by order
gives the moved item first with strictly increasing orders. -/
theorem c5_list_reorder_shift :
    (∀ (db : List ListDoc) (t : ListDoc) (newOrder : Int), t.order ≠ newOrder →
       reorderList db t newOrder = db.map (moveWithinParentSpec t newOrder)) ∧
    reorderList [⟨1, 7, 0⟩, ⟨2, 7, 1⟩, ⟨3, 7, 2⟩] ⟨3, 7, 2⟩ 0 =
      [⟨1, 7, 1⟩, ⟨2, 7, 2⟩, ⟨3, 7, 0⟩] ∧
    sortByOrder (reorderList [⟨1, 7, 0⟩, ⟨2, 7, 1⟩, ⟨3, 7, 2⟩] ⟨3, 7, 2⟩ 0) =
      [⟨3, 7, 0⟩, ⟨1, 7, 1⟩, ⟨2, 7, 2⟩] ∧
    List.Chain' (· < ·)
      ((sortByOrder (reorderList [⟨1, 7, 0⟩, ⟨2, 7, 1⟩, ⟨3, 7, 2⟩] ⟨3, 7, 2⟩ 0)).map
        ListDoc.order) := by
  have hsort : sortByOrder (reorderList [⟨1, 7, 0⟩, ⟨2, 7, 1⟩, ⟨3, 7, 2⟩] ⟨3, 7, 2⟩ 0) =
      [⟨3, 7, 0⟩, ⟨1, 7, 1⟩, ⟨2, 7, 2⟩] := by decide
  refine ⟨?_, by decide, hsort, ?_⟩
  case refine_2 =>
    rw [hsort]
    refine List.chain'_cons.mpr ⟨by norm_num, List.chain'_cons.mpr ⟨by norm_num, ?_⟩⟩
    exact List.chain'_singleton _
  intro db t n h
  unfold reorderList
  rw [if_neg h]
  by_cases hlt : t.order < n
  · rw [if_pos hlt, List.map_map]
    exact List.map_congr_left fun l _ => comp_down t l n hlt
  · rw [if_neg hlt, List.map_map]
    exact List.map_congr_left fun l _ => comp_up t l n (by omega)

/-- Witness for C5 at the concrete scenario: moving the order-2 sibling
of board 7 to position 0. -/
theorem c5_witness :
    reorderList [⟨1, 7, 0⟩, ⟨2, 7, 1⟩, ⟨3, 7, 2⟩] ⟨3, 7, 2⟩ 0 =
      ([⟨1, 7, 0⟩, ⟨2, 7, 1⟩, ⟨3, 7, 2⟩] : List ListDoc).map (moveWithinParentSpec ⟨3, 7, 2⟩ 0) :=
  c5_list_reorder_shift.1 [⟨1, 7, 0⟩, ⟨2, 7, 1⟩, ⟨3, 7, 2⟩] ⟨3, 7, 2⟩ 0 (by decide)

/-- The seed of a left fold by `max` is a lower bound of the result. -/
lemma foldl_max_init_le (l : List Int) (a : Int) : a ≤ l.foldl max a := by
  induction l generalizing a with
  | nil => exact le_refl a
  | cons b l ih => exact le_trans (le_max_left a b) (ih (max a b))

/-- A left fold by `max` returns its seed or one of the elements. -/
lemma foldl_max_mem (l : List Int) (a : Int) : l.foldl max a = a ∨ l.foldl max a ∈ l := by
  induction l generalizing a with
  | nil => exact Or.inl rfl
  | cons b l ih =>
    rcases ih (max a b) with h | h
    · rcases max_choice a b with hm | hm
      · exact Or.inl (by rw [List.foldl_cons, h, hm])
      · exact Or.inr (by rw [List.foldl_cons, h, hm]; exact List.mem_cons_self b l)
    · exact Or.inr (List.mem_cons_of_mem b h)

/-- Every element of the list is bounded by a left fold by `max`. -/
lemma mem_le_foldl_max (l : List Int) (a x : Int) (h : x ∈ l) : x ≤ l.foldl max a := by
  induction l generalizing a with
  | nil => cases h
  | cons b l ih =>
    rcases List.mem_cons.mp h with rfl | h2
    · exact le_trans (le_max_right a x) (foldl_max_init_le l (max a x))
    · exact ih (max a b) h2

/-- The order assigned by the append hook is strictly above every
existing sibling order. -/
lemma appendOrder_gt (s : List Int) (x : Int) (hx : x ∈ s) : x < appendOrder s := by
  cases s with
  | nil => cases hx
  | cons a rest =>
    show x < rest.foldl max a + 1
    rcases List.mem_cons.mp hx with rfl | h2
    · have := foldl_max_init_le rest x
      omega
    · have := mem_le_foldl_max rest a x h2
      omega

/-- For a nonempty sibling collection the append hook assigns one more
than the maximum existing order. -/
lemma appendOrder_spec (s : List Int) (hs : s ≠ []) :
    ∃ m, m ∈ s ∧ (∀ x ∈ s, x ≤ m) ∧ appendOrder s = m + 1 := by
  cases s with
  | nil => exact absurd rfl hs
  | cons a rest =>
    refine ⟨rest.foldl max a, ?_, ?_, rfl⟩
    · rcases foldl_max_mem rest a with h | h
      · rw [h]
        exact List.mem_cons_self a rest
      · exact List.mem_cons_of_mem a h
    · intro x hx
      rcases List.mem_cons.mp hx with rfl | h2
      · exact foldl_max_init_le rest x
      · exact mem_le_foldl_max rest a x h2

/-- Sequential appends starting from an empty parent assign the orders
`0, 1, ..., n-1` in append order. -/
lemma appendN_eq_range (n : Nat) : appendN n = (List.range n).map Int.ofNat := by
  induction n with
  | zero => rfl
  | succ k ih =>
    show appendN k ++ [appendOrder (appendN k)] = _
    rw [ih, List.range_succ, List.map_append]
    congr 1
    cases k with
    | zero => rfl
    | succ j =>
      obtain ⟨m, hmem, hub, heq⟩ :=
        appendOrder_spec ((List.range (j + 1)).map Int.ofNat) (by simp [List.range_succ])
      obtain ⟨i, hi, hmi⟩ := List.mem_map.mp hmem
      rw [List.mem_range] at hi
      have h2 : Int.ofNat j ≤ m := by
        refine hub (Int.ofNat j) (List.mem_map.mpr ⟨j, ?_, rfl⟩)
        rw [List.mem_range]
        omega
      have h3 : m ≤ Int.ofNat j := by
        subst hmi
        exact Int.ofNat_le.mpr (by omega)
      show [appendOrder _] = [Int.ofNat (j + 1)]
      rw [heq, le_antisymm h3 h2]
      rfl

/-- Claim C6: the append hook assigns order 0 to the first sibling of an
empty parent and `1 + max` of the existing orders otherwise; appending
`n` items sequentially to an empty parent therefore assigns the orders
`0 .. n-1` in append order, and an append never duplicates an existing
order value. -/
theorem c6_append_order :
    appendOrder [] = 0 ∧
    (∀ s : List Int, s ≠ [] →
       ∃ m, m ∈ s ∧ (∀ x ∈ s, x ≤ m) ∧ appendOrder s = m + 1) ∧
    (∀ n : Nat, appendN n = (List.range n).map Int.ofNat) ∧
    (∀ s : List Int, s.Nodup → (s ++ [appendOrder s]).Nodup) := by
  refine ⟨rfl, appendOrder_spec, appendN_eq_range, ?_⟩
  intro s h
  rw [List.nodup_append]
  refine ⟨h, List.nodup_singleton _, ?_⟩
  intro x hx hx2
  rw [List.mem_singleton] at hx2
  subst hx2
  exact absurd (appendOrder_gt s _ hx) (lt_irrefl _)

/-- Witness for C6 at concrete inputs: appending to siblings with orders
`[0, 1, 5]` and the first four appends from an empty parent. -/
theorem c6_witness :
    (∃ m, m ∈ [(0 : Int), 1, 5] ∧ (∀ x ∈ [(0 : Int), 1, 5], x ≤ m) ∧
       appendOrder [(0 : Int), 1, 5] = m + 1) ∧
    appendN 4 = (List.range 4).map Int.ofNat ∧
    (([(0 : Int), 1, 5] ++ [appendOrder [(0 : Int), 1, 5]]).Nodup) :=
  ⟨c6_append_order.2.1 [(0 : Int), 1, 5] (by decide),
   c6_append_order.2.2.1 4,
   c6_append_order.2.2.2 [(0 : Int), 1, 5] (by decide)⟩

/-- Claim C10: a list-reorder request whose `newOrder` is below 1 is
rejected by the validator chain before authentication, access check and
handler run, so the collection of list documents is returned untouched —
while the append hook assigns order 0 to the first list of an empty
board, so position 0 can never again be targeted through this route. -/
theorem c10_reorder_min_order_validation :
    (∀ (lists : List ListDoc) (mems : List Membership) (board : Board)
       (userId : Nat) (target : ListDoc) (newOrder : Int),
       newOrder < 1 →
         listReorderRequest lists mems board userId target newOrder =
           (RequestOutcome.invalid, lists)) ∧
    appendOrder [] = 0 := by
  refine ⟨?_, rfl⟩
  intro lists mems board userId target newOrder h
  unfold listReorderRequest
  rw [if_pos h]

/-- Witness for C10: moving a list of board 7 to position 0 is answered
with the validation failure and the state is unchanged. -/
theorem c10_witness :
    listReorderRequest [⟨1, 7, 0⟩, ⟨2, 7, 1⟩] [] ⟨7, 100, false⟩ 100 ⟨2, 7, 1⟩ 0 =
      (RequestOutcome.invalid, [⟨1, 7, 0⟩, ⟨2, 7, 1⟩]) :=
  c10_reorder_min_order_validation.1 [⟨1, 7, 0⟩, ⟨2, 7, 1⟩] [] ⟨7, 100, false⟩ 100 ⟨2, 7, 1⟩ 0
    (by decide)

/-- A `Card` document: identity, list reference, denormalized board
reference, integer order. -/
structure Card where
  id : Nat
  list : Nat
  board : Nat
  order : Int
deriving DecidableEq, Repr

/-- `cardSchema.statics.reorderCards(listId, cardOrders)`: a `bulkWrite`
of one `updateOne` per entry, each filtering on `{_id: cardId, list: listId}`
and setting `order`. `_id` is unique in the collection, so each filter
matches at most one document. -/
def reorderCards (db : List Card) (listId : Nat) (cardOrders : List (Nat × Int)) :
    List Card :=
  cardOrders.foldl
    (fun cs co =>
      cs.map fun c => if c.id = co.1 ∧ c.list = listId then { c with order := co.2 } else c)
    db

/-- Outcome of the bulk card-reorder route: applied, or the 400
`"Some cards do not belong to this list"` answer. -/
inductive BulkOutcome where
  | ok
  | mismatch
deriving DecidableEq, Repr

/-- The `PUT /reorder` cards route, after its permission gate: it runs
`Card.find({_id: {$in: cardIds}, list: listId})` and rejects the whole
request when the number of documents found differs from the number of
entries; otherwise it calls `Card.reorderCards`. Returns the outcome and
the resulting card collection. -/
def cardsReorderEndpoint (db : List Card) (listId : Nat) (cardOrders : List (Nat × Int)) :
    BulkOutcome × List Card :=
  if (db.filter fun c =>
        decide (c.id ∈ cardOrders.map Prod.fst ∧ c.list = listId)).length ≠
      cardOrders.length
  then (.mismatch, db)
  else (.ok, reorderCards db listId cardOrders)

/-- Outcome of the card-move route: applied, 404 for a missing card, or
the 400 `"Target list not found or does not belong to the same board"`
answer. -/
inductive MoveOutcome where
  | ok
  | notFound
  | badTarget
deriving DecidableEq, Repr

/-- The `PATCH /:id/move` cards route, after its permission gate: the
card comes from `checkCardAccess` (404 when absent), the target list is
fetched and rejected when missing or on a different board than the
card's board, and otherwise `findByIdAndUpdate` sets the card's `list`
and its `order` to the given value or 0. -/
def moveCardEndpoint (cards : List Card) (lists : List ListDoc) (cardId targetListId : Nat)
    (ord : Option Int) : MoveOutcome × List Card :=
  match cards.find? fun c => decide (c.id = cardId) with
  | none => (.notFound, cards)
  | some card =>
    match lists.find? fun l => decide (l.id = targetListId) with
    | none => (.badTarget, cards)
    | some tl =>
      if tl.board ≠ card.board then (.badTarget, cards)
      else
        (.ok,
         cards.map fun c =>
           if c.id = cardId then { c with list := targetListId, order := ord.getD 0 } else c)

/-- Claim C7, counterexample: a batch in which every referenced card does
belong to the stated list is still rejected when an entry is duplicated —
the route compares the number of distinct matching documents with the
number of entries. Here card 1 belongs to list 5 and the batch
`[(1, 1), (1, 2)]` references only card 1, yet the outcome is the
mismatch rejection. -/
theorem c7_duplicate_entries_cex :
    (∀ p ∈ [((1 : Nat), (1 : Int)), (1, 2)],
       ∃ c ∈ [(⟨1, 5, 9, 0⟩ : Card)], c.id = p.1 ∧ c.list = 5) ∧
    cardsReorderEndpoint [⟨1, 5, 9, 0⟩] 5 [(1, 1), (1, 2)] =
      (BulkOutcome.mismatch, [⟨1, 5, 9, 0⟩]) := by
  decide

/-- Claim C7, amended: assuming the card collection has distinct ids,
(a) a batch containing an entry whose card does not belong to the stated
list is rejected whole with the mismatch outcome and no card changed, and
(b) a batch whose entries reference pairwise-distinct cards that all
belong to the list is applied in full through `reorderCards`. -/
theorem c7_bulk_reorder_validation (db : List Card) (listId : Nat)
    (cardOrders : List (Nat × Int)) (hdb : (db.map Card.id).Nodup) :
    ((∃ p ∈ cardOrders, ∀ c ∈ db, ¬(c.id = p.1 ∧ c.list = listId)) →
       cardsReorderEndpoint db listId cardOrders = (BulkOutcome.mismatch, db)) ∧
    ((cardOrders.map Prod.fst).Nodup →
     (∀ p ∈ cardOrders, ∃ c ∈ db, c.id = p.1 ∧ c.list = listId) →
       cardsReorderEndpoint db listId cardOrders =
         (BulkOutcome.ok, reorderCards db listId cardOrders)) := by
  have hnodup :
      ((db.filter fun c =>
          decide (c.id ∈ cardOrders.map Prod.fst ∧ c.list = listId)).map Card.id).Nodup :=
    List.Nodup.sublist (List.Sublist.map Card.id (List.filter_sublist db)) hdb
  constructor
  · rintro ⟨p0, hp0, hnone⟩
    have hsub : (db.filter fun c =>
        decide (c.id ∈ cardOrders.map Prod.fst ∧ c.list = listId)).map Card.id ⊆
        (cardOrders.map Prod.fst).erase p0.1 := by
      intro i hi
      obtain ⟨c, hcf, rfl⟩ := List.mem_map.mp hi
      obtain ⟨hcdb, hcp⟩ := List.mem_filter.mp hcf
      have hP := of_decide_eq_true hcp
      have hne : c.id ≠ p0.1 := fun he => hnone c hcdb ⟨he, hP.2⟩
      exact (List.mem_erase_of_ne hne).mpr hP.1
    have hlen1 := (List.Nodup.subperm hnodup hsub).length_le
    have hp0mem : p0.1 ∈ cardOrders.map Prod.fst := List.mem_map_of_mem Prod.fst hp0
    have hlen2 : ((cardOrders.map Prod.fst).erase p0.1).length = cardOrders.length - 1 := by
      rw [List.length_erase_of_mem hp0mem, List.length_map]
    have hpos : 0 < cardOrders.length :=
      List.length_pos.mpr (List.ne_nil_of_mem hp0)
    rw [List.length_map] at hlen1
    unfold cardsReorderEndpoint
    rw [if_pos (by omega)]
  · intro hids hall
    have hsub1 : (db.filter fun c =>
        decide (c.id ∈ cardOrders.map Prod.fst ∧ c.list = listId)).map Card.id ⊆
        cardOrders.map Prod.fst := by
      intro i hi
      obtain ⟨c, hcf, rfl⟩ := List.mem_map.mp hi
      exact (of_decide_eq_true (List.mem_filter.mp hcf).2).1
    have hsub2 : cardOrders.map Prod.fst ⊆
        (db.filter fun c =>
          decide (c.id ∈ cardOrders.map Prod.fst ∧ c.list = listId)).map Card.id := by
      intro i hi
      obtain ⟨p, hp, rfl⟩ := List.mem_map.mp hi
      obtain ⟨c, hcdb, hcid, hclist⟩ := hall p hp
      refine List.mem_map.mpr
        ⟨c, List.mem_filter.mpr ⟨hcdb, decide_eq_true ⟨?_, hclist⟩⟩, hcid⟩
      rw [hcid]
      exact List.mem_map_of_mem Prod.fst hp
    have le1 := (List.Nodup.subperm hnodup hsub1).length_le
    have le2 := (List.Nodup.subperm hids hsub2).length_le
    simp only [List.length_map] at le1 le2
    unfold cardsReorderEndpoint
    rw [if_neg (not_not_intro (by omega))]

/-- Witness for the amended C7 theorem: a valid batch over two cards of
list 5 is applied in full. -/
theorem c7_witness :
    cardsReorderEndpoint [⟨1, 5, 9, 0⟩, ⟨2, 5, 9, 1⟩] 5 [(1, 1), (2, 0)] =
      (BulkOutcome.ok, reorderCards [⟨1, 5, 9, 0⟩, ⟨2, 5, 9, 1⟩] 5 [(1, 1), (2, 0)]) :=
  (c7_bulk_reorder_validation [⟨1, 5, 9, 0⟩, ⟨2, 5, 9, 1⟩] 5 [(1, 1), (2, 0)]
    (by decide)).2 (by decide) (by decide)

/-- Claim C8: with the card found and the target list found, a target
list on a different board is rejected with the 400 answer and the card
collection is returned untouched (the card's list, order and board are
unchanged), while a target list on the same board makes the route set
exactly the moved card's `list` to the target and its `order` to the
given value or 0, touching no other card in either list. -/
theorem c8_card_move (cards : List Card) (lists : List ListDoc) (cardId targetListId : Nat)
    (ord : Option Int) (card : Card) (tl : ListDoc)
    (hc : cards.find? (fun c => decide (c.id = cardId)) = some card)
    (hl : lists.find? (fun l => decide (l.id = targetListId)) = some tl) :
    (tl.board ≠ card.board →
       moveCardEndpoint cards lists cardId targetListId ord = (MoveOutcome.badTarget, cards)) ∧
    (tl.board = card.board →
       moveCardEndpoint cards lists cardId targetListId ord =
         (MoveOutcome.ok,
          cards.map fun c =>
            if c.id = cardId then { c with list := targetListId, order := ord.getD 0 }
            else c)) := by
  unfold moveCardEndpoint
  rw [hc, hl]
  dsimp only
  constructor
  · intro h
    rw [if_pos h]
  · intro h
    rw [if_neg (not_not_intro h)]

/-- Witness for C8: a cross-board target is rejected with no change, and
a same-board target moves the card with order defaulting to 0. -/
theorem c8_witness :
    moveCardEndpoint [⟨1, 5, 9, 0⟩] [⟨6, 8, 2⟩] 1 6 (some 3) =
      (MoveOutcome.badTarget, [⟨1, 5, 9, 0⟩]) ∧
    moveCardEndpoint [⟨1, 5, 9, 0⟩] [⟨6, 9, 2⟩] 1 6 none = (MoveOutcome.ok, [⟨1, 6, 9, 0⟩]) :=
  ⟨(c8_card_move [⟨1, 5, 9, 0⟩] [⟨6, 8, 2⟩] 1 6 (some 3) ⟨1, 5, 9, 0⟩ ⟨6, 8, 2⟩
      (by decide) (by decide)).1 (by decide),
   ((c8_card_move [⟨1, 5, 9, 0⟩] [⟨6, 9, 2⟩] 1 6 none ⟨1, 5, 9, 0⟩ ⟨6, 9, 2⟩
      (by decide) (by decide)).2 rfl).trans (by decide)⟩

end BoardHub
